import Mathlib

/-!
Verification of the TLE (Two-Line Element set) parser.

The Rust source (src/lib.rs) is shallowly embedded below:

* byte strings are `List Nat` (each entry one byte);
* `char` is `Char`; slices of chars are `List Char`;
* `u32`/`u8`/`u16` arithmetic is `Nat` with an explicit `% 2^w`
  wherever the source's machine arithmetic can wrap;
* `f32`/`f64` values are modelled as exact rationals (`ℚ`): the fields the
  parser decodes are finite decimal literals and fixed integer powers, and the
  properties verified here concern which arithmetic expression is computed,
  not IEEE rounding; infinities and NaN are not modelled;
* fallible Rust code returns `Except Error α`; code that can abort the
  process (an out-of-bounds index, a failed `assert_eq!`, an `unwrap` of
  `None`) is wrapped in `Option`, with `none` standing for the abort. The
  combined shape is `PRes α := Option (Except Error α)`.
-/

deriving instance DecidableEq for Except

namespace TleSpec

/-- `Line` from the source: disambiguates which physical line an error is about. -/
inductive Line where
  | Line1
  | Line2
deriving DecidableEq

/-- The `Error` enum from the source, one constructor per variant. -/
inductive Error where
  | InvalidLineSize (l : Line) (n : Nat)
  | Space (l : Line) (c : Char) (pos : Nat)
  | SatlliteCatalogNumber (l : Line)
  | Classification (c : Char)
  | InternationalDesignatorLaunchYear
  | InternationalDesignatorLaunchNumber
  | EpochYear
  | EpochDay
  | FirstDerivative
  | SecondDerivative
  | BStar
  | EphemerisType (c : Char)
  | ElementSetNumber
  | Inclination
  | RightAscension
  | Eccentricty
  | ArgumentOfPerigee
  | MeanAnomaly
  | MeanMotion
  | RevolutionNumber
  | Checksum (l : Line) (c : Char)
  | InvalidChecksum (l : Line) (found : Nat) (calculated : Nat)
  | LineNumber (l : Line) (c : Char)
  | SatelliteCatalogNumberMismatch (a : Nat) (b : Nat)
  | ContainsNonAsciiCharacter (l : Line)
deriving DecidableEq

/-- `Classification` from the source. -/
inductive Classification where
  | Unclassified
  | Classified
  | Secret
deriving DecidableEq

/-- `InternationalDesignator` from the source (`launch_piece: [char; 3]`). -/
structure InternationalDesignator where
  launch_year : Nat
  launch_num : Nat
  launch_piece : Char × Char × Char
deriving DecidableEq

/-- The `Tle` record from the source, with `f32`/`f64` fields as `ℚ`. -/
structure Tle where
  satellite_catalog_number : Nat
  classification : Classification
  international_designator : InternationalDesignator
  epoch_year : Nat
  epoch_day_and_fractional_part : ℚ
  first_derivative_of_mean_motion : ℚ
  second_derivative_of_mean_motion : ℚ
  b_star : ℚ
  element_set_number : Nat
  checksum_1 : Nat
  inclination : ℚ
  right_ascension_of_ascending_node : ℚ
  eccentricity : ℚ
  argument_of_perigee : ℚ
  mean_anomaly : ℚ
  mean_motion : ℚ
  revolution_number_at_epoch : Nat
  checksum_2 : Nat
deriving DecidableEq

/-- Result of a step of the parser: `none` models a process abort (index out
of bounds / failed assertion / `unwrap` of `None`); `some (.error e)` a
returned `Err(e)`; `some (.ok a)` a success. -/
abbrev PRes (α : Type) : Type := Option (Except Error α)

/-- `?`-propagation for `PRes`: aborts and errors pass through. -/
def pbind {α β : Type} (x : PRes α) (f : α → PRes β) : PRes β :=
  match x with
  | none => none
  | some (.error e) => some (.error e)
  | some (.ok a) => f a

def pok {α : Type} (a : α) : PRes α := some (.ok a)

def perr {α : Type} (e : Error) : PRes α := some (.error e)

def ppanic {α : Type} : PRes α := none

/-- `let Some(x) = o else return Err(e)` -/
def pofOption {α : Type} (o : Option α) (e : Error) : PRes α :=
  match o with
  | none => perr e
  | some a => pok a

/-- The character is an ASCII decimal digit (the domain of `char::to_digit(10)`). -/
def IsDigitChar (c : Char) : Prop := 48 ≤ c.toNat ∧ c.toNat ≤ 57

instance (c : Char) : Decidable (IsDigitChar c) := by
  unfold IsDigitChar; infer_instance

/-- Numeric value of an ASCII digit character. -/
def digitVal (c : Char) : Nat := c.toNat - 48

/-- `char::to_digit(10)` from the Rust standard library. -/
def charToDigit (c : Char) : Option Nat :=
  if IsDigitChar c then some (digitVal c) else none

/-- Most-significant-first place value of a digit string (the mathematical
value `as_digits` is specified to compute). -/
def natOfDigits (l : List Char) : Nat :=
  l.foldl (fun a c => 10 * a + digitVal c) 0

/-- The loop of `as_digits`: walks the digit characters least-significant
first (the source indexes `chars[chars.len() - 1 - i]`, so the list passed
here is the reverse of the field), accumulating
`val += ascii_val * 10u32.pow(i)` in wrapping `u32` arithmetic. -/
def asDigitsAux : List Char → Nat → Nat → Option Nat
  | [], _, val => some val
  | c :: rest, i, val =>
    match charToDigit c with
    | none => none
    | some d => asDigitsAux rest (i + 1) ((val + d * (10 ^ i % 4294967296)) % 4294967296)

/-- `as_digits` from the source: `None` on the empty slice, otherwise the
least-significant-first accumulation over the reversed slice. -/
def as_digits (chars : List Char) : Option Nat :=
  if chars.length = 0 then none
  else asDigitsAux chars.reverse 0 0

/-- `trim_leading_space` from the source.  The source loop is
`while blank <= line.len() { if line[blank] == ' ' { blank += 1 } else { break } }`:
the loop guard admits `blank = line.len()`, so on a slice consisting
entirely of spaces (the empty slice included) the access `line[blank]` is one
past the end and the process aborts; that abort is modelled by `none`.
Otherwise the suffix starting at the first non-space character is returned. -/
def trim_leading_space : List Char → Option (List Char)
  | [] => none
  | c :: cs => if c = ' ' then trim_leading_space cs else some (c :: cs)

/-- `trim_leading_space` as used inside `Tle::parse`: its abort becomes the
parser's abort. -/
def trimP (slice : List Char) : PRes (List Char) :=
  match trim_leading_space slice with
  | none => ppanic
  | some t => pok t

/-- The scan loop of `parse_tle_f32`: remembers the index of the first `-`
seen; a second `-` is an immediate `SecondDerivative` error. -/
def scanDash : List Char → Nat → Option Nat → Except Error (Option Nat)
  | [], _, idx => .ok idx
  | c :: rest, i, idx =>
    if c = '-' then
      match idx with
      | none => scanDash rest (i + 1) (some i)
      | some _ => .error .SecondDerivative
    else scanDash rest (i + 1) idx

/-- `parse_tle_f32` from the source: trim leading spaces (may abort), locate
exactly one `-`, split there, decode the mantissa and the exponent digits with
`as_digits`, assert the split suffix begins with `-` (a failed assertion
aborts), and return `(num as f32).powi(-(exp as i32))`, i.e. `num ^ (-exp)`. -/
def parse_tle_f32 (line : List Char) : PRes ℚ :=
  match trim_leading_space line with
  | none => ppanic
  | some trimmed =>
    match scanDash trimmed 0 none with
    | .error e => perr e
    | .ok none => perr .SecondDerivative
    | .ok (some idx) =>
      match as_digits (trimmed.take idx) with
      | none => perr .SecondDerivative
      | some num =>
        match trimmed.drop idx with
        | [] => perr .SecondDerivative
        | neg :: expDigits =>
          if neg = '-' then
            match as_digits expDigits with
            | none => perr .SecondDerivative
            | some e => pok ((num : ℚ) ^ (-(e : ℤ)))
          else ppanic

/-- Fuel-indexed computation of `floor (log10 n)` by repeated division;
with `n` itself as fuel it terminates before the fuel runs out. -/
def ilog10Aux : Nat → Nat → Nat
  | 0, _ => 0
  | fuel + 1, n => if n < 10 then 0 else ilog10Aux fuel (n / 10) + 1

/-- `u32::checked_ilog10` from the Rust standard library: `none` for `0`,
otherwise `floor (log10 n)`. -/
def checked_ilog10 (n : Nat) : Option Nat :=
  if n = 0 then none else some (ilog10Aux n n)

/-- `tle_line` from the source: reads the first 69 bytes into characters via
`u8 as char`; an input shorter than 69 bytes makes the read out of bounds. -/
def tle_line (line : List Nat) : Option (List Char) :=
  if 69 ≤ line.length then some ((line.take 69).map Char.ofNat) else none

/-- `validate_line` from the source: length must be exactly 69, every byte
must be ASCII (`< 128`), and on success the bytes become characters. -/
def validate_line (line : List Nat) (line_num : Line) : PRes (List Char) :=
  if line.length ≠ 69 then perr (.InvalidLineSize line_num line.length)
  else if ¬ (line.all fun b => decide (b < 128)) then
    perr (.ContainsNonAsciiCharacter line_num)
  else
    match tle_line line with
    | none => ppanic
    | some cs => pok cs

/-- The `split_space!` macro from the source: `split_at(1)` (aborts on an
empty slice), then the single character must be a space; otherwise a
positional `Space` error with the line tag and position the macro was
invoked with. -/
def split_space (line_num : Line) (line : List Char) (pos : Nat) : PRes (List Char) :=
  match line with
  | [] => ppanic
  | c :: rest => if c = ' ' then pok rest else perr (.Space line_num c pos)

/-- Exponent suffix of the float grammar (`(e|E) sign? digits`), applied to a
sign and mantissa already parsed. -/
def rustParseExp (sgn : ℚ) (v : ℚ) : List Char → Option ℚ
  | [] => some (sgn * v)
  | c :: r =>
    if c = 'e' ∨ c = 'E' then
      let (es, r2) : ℤ × List Char :=
        match r with
        | '+' :: rr => (1, rr)
        | '-' :: rr => (-1, rr)
        | rr => (1, rr)
      let ds := r2.takeWhile fun ch => decide (IsDigitChar ch)
      let r3 := r2.dropWhile fun ch => decide (IsDigitChar ch)
      if ds.isEmpty ∨ ¬ r3.isEmpty then none
      else some (sgn * v * (10 : ℚ) ^ (es * (natOfDigits ds : ℤ)))
    else none

/-- Models `str::parse::<f32>` / `str::parse::<f64>` from the Rust standard
library on finite decimal input:
`sign? (digits ('.' digits?)? | '.' digits) ((e|E) sign? digits)?`, the whole
slice consumed, the value exact (no IEEE rounding).  The special forms
`inf`/`infinity`/`nan` are not modelled (no representation in `ℚ`); no field
of a TLE record is expected to hold them. -/
def rustParseFloat (s : List Char) : Option ℚ :=
  let (sgn, rest) : ℚ × List Char :=
    match s with
    | '+' :: r => (1, r)
    | '-' :: r => (-1, r)
    | r => (1, r)
  let intDigits := rest.takeWhile fun ch => decide (IsDigitChar ch)
  let rest1 := rest.dropWhile fun ch => decide (IsDigitChar ch)
  match rest1 with
  | '.' :: r2 =>
    let fracDigits := r2.takeWhile fun ch => decide (IsDigitChar ch)
    let rest2 := r2.dropWhile fun ch => decide (IsDigitChar ch)
    if intDigits.isEmpty ∧ fracDigits.isEmpty then none
    else
      rustParseExp sgn
        ((natOfDigits intDigits : ℚ) + (natOfDigits fracDigits : ℚ) / 10 ^ fracDigits.length)
        rest2
  | _ =>
    if intDigits.isEmpty then none
    else rustParseExp sgn (natOfDigits intDigits : ℚ) rest1

/-- The classification match from `Tle::parse`: `U`, `C`, `S` or an error. -/
def classify (c : Char) : PRes Classification :=
  match c with
  | 'U' => pok .Unclassified
  | 'C' => pok .Classified
  | 'S' => pok .Secret
  | _ => perr (.Classification c)

/-- The eccentricity decode inlined in `Tle::parse` (line 2, columns 26-32):
`as_digits` on the 7 characters, `checked_ilog10` (fails on zero), then
`(ecc as f32).powi(dig as i32 - slice.len() as i32)`. -/
def parseEccentricity (slice : List Char) : Except Error ℚ :=
  match as_digits slice with
  | none => .error .Eccentricty
  | some ecc =>
    match checked_ilog10 ecc with
    | none => .error .Eccentricty
    | some dig => .ok ((ecc : ℚ) ^ ((dig : ℤ) - (slice.length : ℤ)))

/-- The B* decode from `Tle::parse` (line 1, columns 53-60): a leading `-` in
the untrimmed 8-character slice is stripped and remembered as `sign = -1`,
the rest goes through `parse_tle_f32`, and the result is `s * sign`. -/
def parse_bstar (slice : List Char) : PRes ℚ :=
  match slice with
  | [] => ppanic
  | c :: rest =>
    let sign : ℚ := if c = '-' then -1 else 1
    let slice2 := if c = '-' then rest else c :: rest
    pbind (parse_tle_f32 slice2) fun s => pok (s * sign)

/-- The checksum step closing each line: `as_digits` on the remaining
character(s); on failure a `Checksum` error carrying `line[0]`. -/
def parseChecksum (line_num : Line) (l : List Char) : PRes Nat :=
  match as_digits l with
  | some cs => pok cs
  | none =>
    match l with
    | [] => ppanic
    | c :: _ => perr (.Checksum line_num c)

/-- All values produced while walking line 1 of `Tle::parse`. -/
structure Line1Fields where
  satellite_catalog_number_1 : Nat
  classification : Classification
  international_designator : InternationalDesignator
  epoch_year : Nat
  epoch_day_and_fractional_part : ℚ
  first_derivative_of_mean_motion : ℚ
  second_derivative_of_mean_motion : ℚ
  b_star : ℚ
  element_set_number : Nat
  checksum_1 : Nat
deriving DecidableEq

/-- All values produced while walking line 2 of `Tle::parse`. -/
structure Line2Fields where
  satellite_catalog_number_2 : Nat
  inclination : ℚ
  right_ascension_of_ascending_node : ℚ
  eccentricity : ℚ
  argument_of_perigee : ℚ
  mean_anomaly : ℚ
  mean_motion : ℚ
  revolution_number_at_epoch : Nat
  checksum_2 : Nat
deriving DecidableEq

/-- Lines 147-253 of the source: the line-1 half of `Tle::parse`, column by
column.  `split_at(n)` becomes `take n`/`drop n` (all the splits are in
bounds once `validate_line` has pinned the length to 69); the point reads
`slice[0]` become pattern matches whose empty case is the abort.  Note the
source slip on the wrong-marker error: the check is on the first character
but the error carries `line[0]`, the character after the split, i.e. the
second character of the line. -/
def parseLine1 (line1 : List Nat) : PRes Line1Fields :=
  pbind (validate_line line1 .Line1) fun l0 =>
  match l0 with
  | [] => ppanic
  | c0 :: la =>
  if c0 ≠ '1' then
    match la with
    | [] => ppanic
    | c1 :: _ => perr (.LineNumber .Line1 c1)
  else
  pbind (split_space .Line1 la 1) fun lb =>
  pbind (pofOption (as_digits (lb.take 5)) (.SatlliteCatalogNumber .Line1)) fun catno =>
  match lb.drop 5 with
  | [] => ppanic
  | cc :: lc =>
  pbind (classify cc) fun cls =>
  pbind (split_space .Line1 lc 8) fun ld =>
  pbind (pofOption (as_digits (ld.take 2)) .InternationalDesignatorLaunchYear) fun launch_year =>
  let le := ld.drop 2
  pbind (pofOption (as_digits (le.take 3)) .InternationalDesignatorLaunchNumber) fun launch_num =>
  match le.drop 3 with
  | p0 :: p1 :: p2 :: lf =>
  let designator : InternationalDesignator :=
    { launch_year := launch_year % 256
      launch_num := launch_num % 65536
      launch_piece := (p0, p1, p2) }
  pbind (split_space .Line1 lf 17) fun lg =>
  pbind (pofOption (as_digits (lg.take 2)) .EpochYear) fun epoch_year =>
  let lh := lg.drop 2
  pbind (pofOption (rustParseFloat (lh.take 12)) .EpochDay) fun epoch_day =>
  let li := lh.drop 12
  pbind (split_space .Line1 li 32) fun lj =>
  pbind (trimP (lj.take 10)) fun fdSlice =>
  pbind (pofOption (rustParseFloat fdSlice) .FirstDerivative) fun first_derivative =>
  let lk := lj.drop 10
  pbind (split_space .Line1 lk 43) fun ll =>
  pbind (parse_tle_f32 (ll.take 8)) fun second_derivative =>
  let lm := ll.drop 8
  pbind (split_space .Line1 lm 52) fun ln =>
  pbind (parse_bstar (ln.take 8)) fun b_star =>
  let lo := ln.drop 8
  pbind (split_space .Line1 lo 61) fun lp =>
  (match lp with
  | [] => ppanic
  | e0 :: lq =>
  if e0 ≠ '0' then perr (.EphemerisType e0)
  else
  pbind (split_space .Line1 lq 63) fun lr =>
  pbind (trimP (lr.take 4)) fun esSlice =>
  pbind (pofOption (as_digits esSlice) .ElementSetNumber) fun element_set_number =>
  pbind (parseChecksum .Line1 (lr.drop 4)) fun checksum_1 =>
  pok
    { satellite_catalog_number_1 := catno
      classification := cls
      international_designator := designator
      epoch_year := epoch_year % 256
      epoch_day_and_fractional_part := epoch_day
      first_derivative_of_mean_motion := first_derivative
      second_derivative_of_mean_motion := second_derivative
      b_star := b_star
      element_set_number := element_set_number % 65536
      checksum_1 := checksum_1 % 256 })
  | _ => ppanic

/-- Lines 255-336 of the source: the line-2 half of `Tle::parse`.  Two source
slips are reproduced on purpose: the column-1 separator is checked with
`Line::Line1` as the reported line, and the mean-motion / revolution-number
failures return `MeanAnomaly` / `MeanMotion` respectively.  The catalog
number comparison happens right after the line-2 catalog field is decoded,
before any later line-2 field is parsed. -/
def parseLine2 (line2 : List Nat) (catalog1 : Nat) : PRes Line2Fields :=
  pbind (validate_line line2 .Line2) fun l0 =>
  match l0 with
  | [] => ppanic
  | c0 :: la =>
  if c0 ≠ '2' then perr (.LineNumber .Line2 c0)
  else
  pbind (split_space .Line1 la 1) fun lb =>
  pbind (pofOption (as_digits (lb.take 5)) (.SatlliteCatalogNumber .Line2)) fun cat2 =>
  if catalog1 ≠ cat2 then perr (.SatelliteCatalogNumberMismatch catalog1 cat2)
  else
  let lc := lb.drop 5
  pbind (split_space .Line2 lc 7) fun ld =>
  pbind (trimP (ld.take 8)) fun inclSlice =>
  pbind (pofOption (rustParseFloat inclSlice) .Inclination) fun incl =>
  let le := ld.drop 8
  pbind (split_space .Line2 le 16) fun lf =>
  pbind (pofOption (rustParseFloat (lf.take 8)) .RightAscension) fun ra =>
  let lg := lf.drop 8
  pbind (split_space .Line2 lg 25) fun lh =>
  pbind (match parseEccentricity (lh.take 7) with
         | .error e => perr e
         | .ok v => pok v) fun ecc =>
  let li := lh.drop 7
  pbind (split_space .Line2 li 33) fun lj =>
  pbind (pofOption (rustParseFloat (lj.take 8)) .ArgumentOfPerigee) fun argp =>
  let lk := lj.drop 8
  pbind (split_space .Line2 lk 42) fun ll =>
  pbind (pofOption (rustParseFloat (ll.take 8)) .MeanAnomaly) fun ma =>
  let lm := ll.drop 8
  pbind (split_space .Line2 lm 51) fun ln =>
  pbind (pofOption (rustParseFloat (ln.take 11)) .MeanAnomaly) fun mm =>
  let lo := ln.drop 11
  pbind (pofOption (as_digits (lo.take 5)) .MeanMotion) fun rev =>
  pbind (parseChecksum .Line2 (lo.drop 5)) fun checksum_2 =>
  pok
    { satellite_catalog_number_2 := cat2
      inclination := incl
      right_ascension_of_ascending_node := ra
      eccentricity := ecc
      argument_of_perigee := argp
      mean_anomaly := ma
      mean_motion := mm
      revolution_number_at_epoch := rev
      checksum_2 := checksum_2 % 256 }

/-- `Tle::parse`: the line-1 half (which never looks at `line2`), then the
line-2 half (which receives line 1's catalog number for the consistency
check), then the record assembly. -/
def Tle.parse (line1 line2 : List Nat) : PRes Tle :=
  pbind (parseLine1 line1) fun f1 =>
  pbind (parseLine2 line2 f1.satellite_catalog_number_1) fun f2 =>
  pok
    { satellite_catalog_number := f1.satellite_catalog_number_1
      classification := f1.classification
      international_designator := f1.international_designator
      epoch_year := f1.epoch_year
      epoch_day_and_fractional_part := f1.epoch_day_and_fractional_part
      first_derivative_of_mean_motion := f1.first_derivative_of_mean_motion
      second_derivative_of_mean_motion := f1.second_derivative_of_mean_motion
      b_star := f1.b_star
      element_set_number := f1.element_set_number
      checksum_1 := f1.checksum_1
      inclination := f2.inclination
      right_ascension_of_ascending_node := f2.right_ascension_of_ascending_node
      eccentricity := f2.eccentricity
      argument_of_perigee := f2.argument_of_perigee
      mean_anomaly := f2.mean_anomaly
      mean_motion := f2.mean_motion
      revolution_number_at_epoch := f2.revolution_number_at_epoch
      checksum_2 := f2.checksum_2 }

/-- Bytes of an ASCII string literal. -/
def strBytes (s : String) : List Nat := s.toList.map Char.toNat

/-- Mathematical value of the reversed digit list as `asDigitsAux` walks it:
the character at distance `j` from the head carries weight `10 ^ (i + j)`. -/
def revDigitsVal : List Char → Nat → Nat
  | [], _ => 0
  | c :: rest, i => digitVal c * 10 ^ i + revDigitsVal rest (i + 1)

/-- Line 1 of the ISS record used in the source's own test. -/
def issLine1 : List Nat :=
  strBytes ("1 25544U 98067A   08264.51782528 -.00002182  00000-0 -11606-4 0  2927")

/-- Line 2 of the ISS record used in the source's own test. -/
def issLine2 : List Nat :=
  strBytes ("2 25544  51.6416 247.4627 0006703 130.5360 325.0288 15.72125391563537")

/-- The ISS line 1 with the 10-character first-derivative field
(columns 33-42) replaced by spaces. -/
def c1Line1 : List Nat := issLine1.take 33 ++ List.replicate 10 32 ++ issLine1.drop 43

/-- The ISS line 2 with the column-1 separator replaced by `X` (byte 88). -/
def c4Line2 : List Nat := issLine2.take 1 ++ [88] ++ issLine2.drop 2

/-- The ISS line 1 with the B* field (columns 53-60) replaced by a slice
containing no `-` at all. -/
def c5Line1BadBstar : List Nat := issLine1.take 53 ++ strBytes ("11111111") ++ issLine1.drop 61

/-- The ISS line 2 with the mean-motion field (columns 52-62) replaced by
letters. -/
def c5Line2BadMeanMotion : List Nat :=
  issLine2.take 52 ++ strBytes ("AAAAAAAAAAA") ++ issLine2.drop 63

/-- The ISS line 2 with the revolution-number field (columns 63-67) replaced
by letters. -/
def c5Line2BadRevolution : List Nat := issLine2.take 63 ++ strBytes ("XXXXX") ++ issLine2.drop 68

/-- The ISS line 1 with its first two characters replaced by `X`, `Y`. -/
def c6Line1 : List Nat := strBytes ("XY") ++ issLine1.drop 2

/-- The ISS line 2 with its first character replaced by `Z`. -/
def c6Line2 : List Nat := strBytes ("Z") ++ issLine2.drop 1

/-- A 69-byte line 1 whose catalog field reads 11111 but whose
classification character is the illegal `X`. -/
def c7CexLine1 : List Nat := strBytes ("1 11111X") ++ issLine1.drop 8

/-- A well-formed 69-byte line 2 whose catalog field reads 22222. -/
def c7CexLine2 : List Nat := strBytes ("2 22222") ++ issLine2.drop 7

/-- The line-1 field values extracted from the ISS line 1 (with an arbitrary
fallback on the branches a successful parse cannot reach). -/
def issLine1Fields : Line1Fields :=
  match parseLine1 issLine1 with
  | some (.ok d) => d
  | _ =>
    { satellite_catalog_number_1 := 0
      classification := .Unclassified
      international_designator := { launch_year := 0, launch_num := 0, launch_piece := (' ', ' ', ' ') }
      epoch_year := 0
      epoch_day_and_fractional_part := 0
      first_derivative_of_mean_motion := 0
      second_derivative_of_mean_motion := 0
      b_star := 0
      element_set_number := 0
      checksum_1 := 0 }

/-! ### Lemmas about the digit decoder -/

theorem asDigitsAux_eq : ∀ (r : List Char) (i val : Nat),
    (∀ c ∈ r, IsDigitChar c) → i + r.length ≤ 10 →
    val + revDigitsVal r i < 4294967296 →
    asDigitsAux r i val = some (val + revDigitsVal r i)
  | [], i, val, _, _, _ => by simp [asDigitsAux, revDigitsVal]
  | c :: rest, i, val, hdig, hlen, hbound => by
    have hc : IsDigitChar c := hdig c (List.mem_cons_self c rest)
    have hi : i ≤ 9 := by simp [List.length_cons] at hlen; omega
    have hpow : (10 : Nat) ^ i < 4294967296 := by
      calc (10 : Nat) ^ i ≤ 10 ^ 9 := Nat.pow_le_pow_right (by norm_num) hi
      _ < 4294967296 := by norm_num
    have hterm : val + digitVal c * 10 ^ i + revDigitsVal rest (i + 1)
        = val + revDigitsVal (c :: rest) i := by
      simp [revDigitsVal]; omega
    have hsmall : val + digitVal c * 10 ^ i < 4294967296 := by
      have h1 : val + digitVal c * 10 ^ i ≤ val + revDigitsVal (c :: rest) i := by omega
      omega
    simp only [asDigitsAux, charToDigit, if_pos hc]
    rw [Nat.mod_eq_of_lt hpow, Nat.mod_eq_of_lt hsmall]
    rw [asDigitsAux_eq rest (i + 1) (val + digitVal c * 10 ^ i)
      (fun x hx => hdig x (List.mem_cons_of_mem _ hx))
      (by simp [List.length_cons] at hlen ⊢; omega)
      (by omega)]
    congr 1

theorem asDigitsAux_none : ∀ (r : List Char) (i val : Nat),
    (∃ c ∈ r, ¬ IsDigitChar c) → asDigitsAux r i val = none
  | [], _, _, hex => by simp at hex
  | c :: r, i, val, hex => by
    by_cases hc : IsDigitChar c
    · simp only [asDigitsAux, charToDigit, if_pos hc]
      apply asDigitsAux_none r
      rcases hex with ⟨x, hx, hnd⟩
      rcases List.mem_cons.mp hx with h | h
      · exact absurd hc (h ▸ hnd)
      · exact ⟨x, h, hnd⟩
    · simp only [asDigitsAux, charToDigit, if_neg hc]

theorem foldlDigits_shift (l : List Char) (a : Nat) :
    l.foldl (fun x c => 10 * x + digitVal c) a
      = a * 10 ^ l.length + l.foldl (fun x c => 10 * x + digitVal c) 0 := by
  induction l generalizing a with
  | nil => simp
  | cons c l ih =>
    simp only [List.foldl_cons, List.length_cons]
    rw [ih (10 * a + digitVal c), ih (10 * 0 + digitVal c)]
    ring

theorem natOfDigits_cons (c : Char) (l : List Char) :
    natOfDigits (c :: l) = digitVal c * 10 ^ l.length + natOfDigits l := by
  simp only [natOfDigits, List.foldl_cons]
  rw [foldlDigits_shift]
  ring

theorem natOfDigits_singleton (c : Char) : natOfDigits [c] = digitVal c := by
  simp [natOfDigits]

theorem revDigitsVal_append (a b : List Char) (i : Nat) :
    revDigitsVal (a ++ b) i = revDigitsVal a i + revDigitsVal b (i + a.length) := by
  induction a generalizing i with
  | nil => simp [revDigitsVal]
  | cons c a ih =>
    simp only [List.cons_append, revDigitsVal, List.length_cons, List.append_eq]
    rw [ih]
    have h : i + 1 + a.length = i + (a.length + 1) := by omega
    rw [h]
    omega

theorem revDigitsVal_reverse (l : List Char) :
    revDigitsVal l.reverse 0 = natOfDigits l := by
  induction l with
  | nil => simp [revDigitsVal, natOfDigits]
  | cons c l ih =>
    simp only [List.reverse_cons]
    rw [revDigitsVal_append, natOfDigits_cons]
    simp [revDigitsVal, ih]
    omega

theorem natOfDigits_lt (l : List Char) (h : ∀ c ∈ l, IsDigitChar c) :
    natOfDigits l < 10 ^ l.length := by
  induction l with
  | nil => simp [natOfDigits]
  | cons c l ih =>
    have hc : digitVal c ≤ 9 := by
      have h9 := h c (List.mem_cons_self c l)
      unfold IsDigitChar at h9
      unfold digitVal
      omega
    have hl := ih fun x hx => h x (List.mem_cons_of_mem _ hx)
    rw [natOfDigits_cons]
    have h2 : (digitVal c + 1) * 10 ^ l.length ≤ 10 * 10 ^ l.length :=
      Nat.mul_le_mul_right _ (by omega)
    have h3 : digitVal c * 10 ^ l.length + natOfDigits l < (digitVal c + 1) * 10 ^ l.length := by
      rw [Nat.succ_mul]
      omega
    calc digitVal c * 10 ^ l.length + natOfDigits l
        < 10 * 10 ^ l.length := by omega
    _ = 10 ^ (c :: l).length := by rw [List.length_cons, Nat.pow_succ]; ring

theorem as_digits_of_digits (l : List Char) (h0 : l ≠ []) (h9 : l.length ≤ 9)
    (hd : ∀ c ∈ l, IsDigitChar c) : as_digits l = some (natOfDigits l) := by
  unfold as_digits
  rw [if_neg (by simpa using h0)]
  rw [asDigitsAux_eq l.reverse 0 0
    (by simpa using hd)
    (by simp; omega)
    (by
      rw [revDigitsVal_reverse]
      have h1 := natOfDigits_lt l hd
      have h2 : (10 : Nat) ^ l.length ≤ 10 ^ 9 := Nat.pow_le_pow_right (by norm_num) h9
      have : (10 : Nat) ^ 9 < 4294967296 := by norm_num
      omega)]
  rw [revDigitsVal_reverse]
  simp

theorem as_digits_none_of_not_digit (l : List Char) (hex : ∃ c ∈ l, ¬ IsDigitChar c) :
    as_digits l = none := by
  rcases List.eq_nil_or_concat l with rfl | _
  · rfl
  · unfold as_digits
    by_cases h0 : l.length = 0
    · rw [if_pos h0]
    · rw [if_neg h0]
      exact asDigitsAux_none l.reverse 0 0 (by simpa using hex)

/-! ### Lemmas about the exponential-field decoder -/

theorem IsDigitChar.ne_dash {c : Char} (h : IsDigitChar c) : c ≠ '-' := by
  intro hEq
  subst hEq
  revert h
  decide

theorem scanDash_no_dash : ∀ (l : List Char) (i : Nat) (idx : Option Nat),
    (∀ c ∈ l, c ≠ '-') → scanDash l i idx = .ok idx
  | [], _, _, _ => rfl
  | c :: l, i, idx, h => by
    unfold scanDash
    rw [if_neg (h c (List.mem_cons_self c l))]
    exact scanDash_no_dash l (i + 1) idx fun x hx => h x (List.mem_cons_of_mem _ hx)

theorem scanDash_append : ∀ (m rest : List Char) (i : Nat),
    (∀ c ∈ m, c ≠ '-') → scanDash (m ++ rest) i none = scanDash rest (i + m.length) none
  | [], rest, i, _ => by simp
  | c :: m, rest, i, h => by
    rw [List.cons_append]
    have h1 : scanDash (c :: (m ++ rest)) i none = scanDash (m ++ rest) (i + 1) none := by
      have hc : c ≠ '-' := h c (List.mem_cons_self c m)
      show (if c = '-' then (scanDash (m ++ rest) (i + 1) (some i) : Except Error (Option Nat))
            else scanDash (m ++ rest) (i + 1) none) = scanDash (m ++ rest) (i + 1) none
      rw [if_neg hc]
    rw [h1, scanDash_append m rest (i + 1) fun x hx => h x (List.mem_cons_of_mem _ hx)]
    have he : i + 1 + m.length = i + (c :: m).length := by simp; omega
    rw [he]

theorem trim_leading_space_length : ∀ (l t : List Char),
    trim_leading_space l = some t → t.length ≤ l.length
  | [], t, h => by simp [trim_leading_space] at h
  | c :: l, t, h => by
    unfold trim_leading_space at h
    by_cases hc : c = ' '
    · rw [if_pos hc] at h
      have := trim_leading_space_length l t h
      simp only [List.length_cons]
      omega
    · rw [if_neg hc] at h
      cases h
      simp

theorem parse_tle_f32_eq (field m : List Char) (d : Char)
    (ht : trim_leading_space field = some (m ++ ['-', d]))
    (hm0 : m ≠ []) (hm9 : m.length ≤ 9)
    (hmd : ∀ c ∈ m, IsDigitChar c) (hd : IsDigitChar d) :
    parse_tle_f32 field = some (.ok ((natOfDigits m : ℚ) ^ (-(digitVal d : ℤ)))) := by
  have hscan : scanDash (m ++ ['-', d]) 0 none = .ok (some m.length) := by
    rw [scanDash_append m ['-', d] 0 fun c hc => (hmd c hc).ne_dash]
    unfold scanDash
    rw [if_pos rfl]
    rw [scanDash_no_dash [d] (0 + m.length + 1) (some (0 + m.length))
      (by simpa using hd.ne_dash)]
    simp
  unfold parse_tle_f32
  rw [ht]
  simp only [hscan, List.take_left, List.drop_left, as_digits_of_digits m hm0 hm9 hmd]
  rw [if_pos trivial]
  simp only [as_digits_of_digits [d] (by simp) (by simp) (by simpa using hd),
    natOfDigits_singleton, pok]

/-! ### The fuel-indexed base-10 logarithm agrees with the floor logarithm -/

theorem ilog10Aux_eq_log : ∀ (fuel n : Nat), 0 < n → n ≤ fuel → ilog10Aux fuel n = Nat.log 10 n
  | 0, n, h0, hf => by omega
  | fuel + 1, n, h0, hf => by
    unfold ilog10Aux
    by_cases h10 : n < 10
    · rw [if_pos h10]
      exact (Nat.log_eq_zero_iff.mpr (Or.inl h10)).symm
    · rw [if_neg h10]
      have hdiv : 0 < n / 10 := Nat.div_pos (by omega) (by norm_num)
      have hlt : n / 10 < n := Nat.div_lt_self h0 (by norm_num)
      rw [ilog10Aux_eq_log fuel (n / 10) hdiv (by omega)]
      have hpos : 0 < Nat.log 10 n := Nat.log_pos (by norm_num) (by omega)
      have hstep := Nat.log_div_base 10 n
      omega

/-! ### Claim theorems -/

/-- C1 (the code contradicts this claim): on a character slice consisting
entirely of spaces — the empty slice included — the leading-space trimmer
reads one past the end of the slice and the process aborts instead of
returning the empty suffix; consequently `Tle::parse` aborts on a 69-byte
ASCII line 1 whose 10-character first-derivative field is all spaces. -/
theorem c1_trimmer_aborts_on_all_spaces :
    trim_leading_space (List.replicate 10 ' ') = none
    ∧ trim_leading_space [] = none
    ∧ c1Line1.length = 69
    ∧ (∀ b ∈ c1Line1, b < 128)
    ∧ Tle.parse c1Line1 issLine2 = none := by decide

/-- C2: on an 8-character exponential field whose trimmed content is a
non-empty digit run, one `-`, and one digit, `parse_tle_f32` returns the
mantissa value raised to the negated exponent value; for the B* field the
result is further multiplied by `-1` exactly when the untrimmed field begins
with `-`. -/
theorem c2_exponential_field :
    (∀ (field m : List Char) (d : Char), field.length = 8 →
      trim_leading_space field = some (m ++ ['-', d]) →
      m ≠ [] → (∀ c ∈ m, IsDigitChar c) → IsDigitChar d →
      parse_tle_f32 field = some (.ok ((natOfDigits m : ℚ) ^ (-(digitVal d : ℤ)))))
    ∧ (∀ (rest m : List Char) (d : Char), rest.length = 7 →
      trim_leading_space rest = some (m ++ ['-', d]) →
      m ≠ [] → (∀ c ∈ m, IsDigitChar c) → IsDigitChar d →
      parse_bstar ('-' :: rest)
        = some (.ok ((natOfDigits m : ℚ) ^ (-(digitVal d : ℤ)) * (-1))))
    ∧ (∀ (m : List Char) (c0 d : Char) (restF : List Char), c0 ≠ '-' →
      (c0 :: restF).length = 8 →
      trim_leading_space (c0 :: restF) = some (m ++ ['-', d]) →
      m ≠ [] → (∀ c ∈ m, IsDigitChar c) → IsDigitChar d →
      parse_bstar (c0 :: restF)
        = some (.ok ((natOfDigits m : ℚ) ^ (-(digitVal d : ℤ)) * 1))) := by
  refine ⟨fun field m d hlen ht hm0 hmd hd => ?_, fun rest m d hlen ht hm0 hmd hd => ?_,
    fun m c0 d restF hc0 hlen ht hm0 hmd hd => ?_⟩
  · have hm9 : m.length ≤ 9 := by
      have := trim_leading_space_length field (m ++ ['-', d]) ht
      simp at this
      omega
    exact parse_tle_f32_eq field m d ht hm0 hm9 hmd hd
  · have hm9 : m.length ≤ 9 := by
      have := trim_leading_space_length rest (m ++ ['-', d]) ht
      simp at this
      omega
    have hcore := parse_tle_f32_eq rest m d ht hm0 hm9 hmd hd
    unfold parse_bstar
    simp [hcore, pbind, pok]
  · have hm9 : m.length ≤ 9 := by
      have := trim_leading_space_length (c0 :: restF) (m ++ ['-', d]) ht
      simp at this hlen
      omega
    have hcore := parse_tle_f32_eq (c0 :: restF) m d ht hm0 hm9 hmd hd
    unfold parse_bstar
    simp [hcore, pbind, pok, hc0]

/-- Witness for C2: the ISS B* field, `" 11606-4"` through `parse_tle_f32`
and `"-11606-4"` through the B* decode. -/
theorem c2_exponential_field_witness :
    parse_tle_f32 ((" 11606-4").toList)
      = some (.ok ((natOfDigits (("11606").toList) : ℚ) ^ (-(digitVal '4' : ℤ))))
    ∧ parse_bstar (("-11606-4").toList)
      = some (.ok ((natOfDigits (("11606").toList) : ℚ) ^ (-(digitVal '4' : ℤ)) * (-1))) := by
  constructor
  · exact c2_exponential_field.1 ((" 11606-4").toList) (("11606").toList) '4'
      (by decide) (by decide) (by decide) (by decide) (by decide)
  · exact c2_exponential_field.2.1 (("11606-4").toList) (("11606").toList) '4'
      (by decide) (by decide) (by decide) (by decide) (by decide)

/-- C3: the 7-character eccentricity field is decoded by `as_digits` into
`d`; a non-digit character or `d = 0` is the `Eccentricty` error, and
otherwise the stored value is `(d as f32) ^ (k - 7)` with
`k = floor (log10 d)`. -/
theorem c3_eccentricity (slice : List Char) (hlen : slice.length = 7) :
    ((∃ c ∈ slice, ¬ IsDigitChar c) → parseEccentricity slice = .error .Eccentricty)
    ∧ ((∀ c ∈ slice, IsDigitChar c) → natOfDigits slice = 0 →
        parseEccentricity slice = .error .Eccentricty)
    ∧ ((∀ c ∈ slice, IsDigitChar c) → natOfDigits slice ≠ 0 →
        parseEccentricity slice
          = .ok ((natOfDigits slice : ℚ)
              ^ ((Nat.log 10 (natOfDigits slice) : ℤ) - 7))) := by
  have hne : slice ≠ [] := by
    intro hnil
    rw [hnil] at hlen
    simp at hlen
  refine ⟨fun hex => ?_, fun hall h0 => ?_, fun hall h0 => ?_⟩
  · unfold parseEccentricity
    rw [as_digits_none_of_not_digit slice hex]
  · unfold parseEccentricity
    rw [as_digits_of_digits slice hne (by omega) hall, h0]
    rfl
  · unfold parseEccentricity checked_ilog10
    rw [as_digits_of_digits slice hne (by omega) hall]
    simp only [if_neg h0]
    rw [ilog10Aux_eq_log (natOfDigits slice) (natOfDigits slice) (by omega) (le_refl _)]
    rw [hlen]
    norm_num

/-- Witness for C3: the ISS eccentricity field `"0006703"`. -/
theorem c3_eccentricity_witness :
    parseEccentricity (("0006703").toList)
      = .ok ((natOfDigits (("0006703").toList) : ℚ)
          ^ ((Nat.log 10 (natOfDigits (("0006703").toList)) : ℤ) - 7))
    ∧ natOfDigits (("0006703").toList) = 6703 := by
  refine ⟨(c3_eccentricity (("0006703").toList) (by decide)).2.2 (by decide) (by decide),
    by decide⟩

/-- C4 (the code contradicts this claim): a non-space at the line-2 column-1
separator produces the positional `Space` error with the right character and
column, but tagged `Line1`, not the line that actually contains the column. -/
theorem c4_separator_wrong_line_tag :
    Tle.parse issLine1 c4Line2 = some (.error (.Space .Line1 'X' 1))
    ∧ Tle.parse issLine1 c4Line2 ≠ some (.error (.Space .Line2 'X' 1)) := by decide

/-- C5 (the code contradicts this claim): a B* field that fails exponential
decoding yields `SecondDerivative` (not `BStar`), a mean-motion field that
fails to parse yields `MeanAnomaly` (not `MeanMotion`), and a
revolution-number field that fails to parse yields `MeanMotion`
(not `RevolutionNumber`). -/
theorem c5_misnamed_field_errors :
    (Tle.parse c5Line1BadBstar issLine2 = some (.error .SecondDerivative)
      ∧ Tle.parse c5Line1BadBstar issLine2 ≠ some (.error .BStar))
    ∧ (Tle.parse issLine1 c5Line2BadMeanMotion = some (.error .MeanAnomaly)
      ∧ Tle.parse issLine1 c5Line2BadMeanMotion ≠ some (.error .MeanMotion))
    ∧ (Tle.parse issLine1 c5Line2BadRevolution = some (.error .MeanMotion)
      ∧ Tle.parse issLine1 c5Line2BadRevolution ≠ some (.error .RevolutionNumber)) := by
  decide

/-- C6 (the code contradicts this claim for line 1): with the first two
characters of line 1 replaced by `X`, `Y`, the wrong-marker error reports
`Y` — the character at the second position — not the offending first
character `X`; on line 2 the first character is reported correctly. -/
theorem c6_marker_error_char :
    c6Line1.take 2 = strBytes (("XY"))
    ∧ Tle.parse c6Line1 issLine2 = some (.error (.LineNumber .Line1 'Y'))
    ∧ Tle.parse c6Line1 issLine2 ≠ some (.error (.LineNumber .Line1 'X'))
    ∧ Tle.parse issLine1 c6Line2 = some (.error (.LineNumber .Line2 'Z')) := by decide

/-- C7 counterexample: both lines are 69 bytes and the two catalog fields
decode to the different values 11111 and 22222, yet the parse result is the
`Classification` error for line 1's bad classification character, not the
mismatch error — line 1 errors are found before the catalog numbers are
compared. -/
theorem c7_counterexample :
    c7CexLine1.length = 69 ∧ c7CexLine2.length = 69
    ∧ as_digits (((c7CexLine1.map Char.ofNat).drop 2).take 5) = some 11111
    ∧ as_digits (((c7CexLine2.map Char.ofNat).drop 2).take 5) = some 22222
    ∧ Tle.parse c7CexLine1 c7CexLine2 = some (.error (.Classification 'X'))
    ∧ Tle.parse c7CexLine1 c7CexLine2
        ≠ some (.error (.SatelliteCatalogNumberMismatch 11111 22222)) := by decide

/-- C7 (amended): provided line 1 parses successfully, a line 2 that begins
with its marker, the column-1 separator and five catalog digits decoding to
a value different from line 1's is rejected with the mismatch error carrying
both decoded values, whatever the remaining 62 bytes hold — the mismatch is
detected before any later line-2 field is parsed. -/
theorem c7_mismatch_before_later_fields (l1 : List Nat) (d : Line1Fields)
    (b1 b2 b3 b4 b5 : Nat) (rest : List Nat) (v2 : Nat)
    (h1 : parseLine1 l1 = some (.ok d))
    (hdig : ∀ b ∈ [b1, b2, b3, b4, b5], 48 ≤ b ∧ b ≤ 57)
    (hrest : rest.length = 62)
    (hascii : ∀ b ∈ rest, b < 128)
    (hv2 : as_digits ([b1, b2, b3, b4, b5].map Char.ofNat) = some v2)
    (hne : d.satellite_catalog_number_1 ≠ v2) :
    Tle.parse l1 (50 :: 32 :: b1 :: b2 :: b3 :: b4 :: b5 :: rest)
      = some (.error
          (.SatelliteCatalogNumberMismatch d.satellite_catalog_number_1 v2)) := by
  have hb1 := hdig b1 (by simp)
  have hb2 := hdig b2 (by simp)
  have hb3 := hdig b3 (by simp)
  have hb4 := hdig b4 (by simp)
  have hb5 := hdig b5 (by simp)
  have hlen : (50 :: 32 :: b1 :: b2 :: b3 :: b4 :: b5 :: rest).length = 69 := by
    simp [hrest]
  have hall : (50 :: 32 :: b1 :: b2 :: b3 :: b4 :: b5 :: rest).all
      (fun b => decide (b < 128)) = true := by
    simp only [List.all_cons, List.all_eq_true, Bool.and_eq_true, decide_eq_true_eq]
    refine ⟨by omega, by omega, by omega, by omega, by omega, by omega, by omega,
      fun b hb => hascii b hb⟩
  have hvl : validate_line (50 :: 32 :: b1 :: b2 :: b3 :: b4 :: b5 :: rest) .Line2
      = pok ('2' :: ' ' :: Char.ofNat b1 :: Char.ofNat b2 :: Char.ofNat b3 ::
          Char.ofNat b4 :: Char.ofNat b5 :: rest.map Char.ofNat) := by
    unfold validate_line tle_line
    rw [if_neg (by omega), if_neg (by rw [hall]; simp), if_pos (by omega),
      List.take_of_length_le (by omega)]
    have h50 : Char.ofNat 50 = '2' := by decide
    have h32 : Char.ofNat 32 = ' ' := by decide
    simp only [List.map_cons, h50, h32]
  have h5 : as_digits ((Char.ofNat b1 :: Char.ofNat b2 :: Char.ofNat b3 :: Char.ofNat b4 ::
      Char.ofNat b5 :: rest.map Char.ofNat).take 5) = some v2 := by
    rw [show (Char.ofNat b1 :: Char.ofNat b2 :: Char.ofNat b3 :: Char.ofNat b4 ::
      Char.ofNat b5 :: rest.map Char.ofNat).take 5
      = [Char.ofNat b1, Char.ofNat b2, Char.ofNat b3, Char.ofNat b4, Char.ofNat b5] from rfl]
    simpa using hv2
  unfold Tle.parse
  rw [h1]
  simp only [pbind]
  unfold parseLine2
  rw [hvl]
  simp only [pok, pbind, split_space, pofOption, h5, reduceIte]
  rw [if_pos hne]
  rfl

/-- Witness for C7: the ISS line 1 against a line 2 reading `"2 25545"`
followed by 62 spaces (malformed in every later field). -/
theorem c7_mismatch_before_later_fields_witness :
    Tle.parse issLine1 (50 :: 32 :: 50 :: 53 :: 53 :: 52 :: 53 :: List.replicate 62 32)
      = some (.error (.SatelliteCatalogNumberMismatch
          issLine1Fields.satellite_catalog_number_1 25545))
    ∧ issLine1Fields.satellite_catalog_number_1 = 25544 := by
  refine ⟨c7_mismatch_before_later_fields issLine1 issLine1Fields 50 53 53 52 53
    (List.replicate 62 32) 25545 rfl (by decide) (by decide) (by decide)
    (by decide) (by decide), by decide⟩

/-- C8: `validate_line` rejects any length other than 69 with
`InvalidLineSize` carrying the line tag and the actual length, then rejects
any non-ASCII byte with `ContainsNonAsciiCharacter` carrying the line tag,
and otherwise succeeds with the 69 bytes mapped one-to-one to characters. -/
theorem c8_validate_line (bytes : List Nat) (ln : Line) :
    (bytes.length ≠ 69 →
      validate_line bytes ln = some (.error (.InvalidLineSize ln bytes.length)))
    ∧ (bytes.length = 69 → (∃ b ∈ bytes, 128 ≤ b) →
      validate_line bytes ln = some (.error (.ContainsNonAsciiCharacter ln)))
    ∧ (bytes.length = 69 → (∀ b ∈ bytes, b < 128) →
      validate_line bytes ln = some (.ok (bytes.map Char.ofNat))
      ∧ (bytes.map Char.ofNat).length = 69) := by
  refine ⟨fun h => ?_, fun h hex => ?_, fun h hall => ?_⟩
  · unfold validate_line
    rw [if_pos h]
    rfl
  · unfold validate_line
    rw [if_neg (by omega)]
    have hfalse : bytes.all (fun b => decide (b < 128)) = false := by
      rcases hex with ⟨b, hb, h128⟩
      by_contra hb2
      have htrue : bytes.all (fun b => decide (b < 128)) = true := by
        revert hb2
        cases bytes.all fun b => decide (b < 128) <;> simp
      rw [List.all_eq_true] at htrue
      have := htrue b hb
      simp at this
      omega
    rw [if_pos (by rw [hfalse]; simp)]
    rfl
  · have htrue : bytes.all (fun b => decide (b < 128)) = true := by
      rw [List.all_eq_true]
      intro b hb
      simpa using hall b hb
    unfold validate_line
    rw [if_neg (by omega), if_neg (by rw [htrue]; simp)]
    unfold tle_line
    rw [if_pos (by omega), List.take_of_length_le (by omega)]
    exact ⟨rfl, by simp [h]⟩

/-- Witness for C8: an empty line, a 69-byte line containing the non-ASCII
byte 200, and the ISS line 1. -/
theorem c8_validate_line_witness :
    validate_line [] .Line1 = some (.error (.InvalidLineSize .Line1 0))
    ∧ validate_line (200 :: List.replicate 68 32) .Line2
        = some (.error (.ContainsNonAsciiCharacter .Line2))
    ∧ validate_line issLine1 .Line1 = some (.ok (issLine1.map Char.ofNat)) := by
  refine ⟨(c8_validate_line [] .Line1).1 (by decide),
    (c8_validate_line (200 :: List.replicate 68 32) .Line2).2.1 (by decide)
      ⟨200, by decide, by decide⟩,
    ((c8_validate_line issLine1 .Line1).2.2 (by decide) (by decide)).1⟩

/-- C9 counterexample: ten digit characters whose place-value sum is
`2 ^ 32`; the `u32` accumulation wraps, so `as_digits` does not return the
place-value sum. -/
theorem c9_overflow_counterexample :
    (∀ c ∈ [('4' : Char), '2', '9', '4', '9', '6', '7', '2', '9', '6'], IsDigitChar c)
    ∧ natOfDigits [('4' : Char), '2', '9', '4', '9', '6', '7', '2', '9', '6'] = 4294967296
    ∧ as_digits [('4' : Char), '2', '9', '4', '9', '6', '7', '2', '9', '6']
        ≠ some 4294967296
    ∧ as_digits [('4' : Char), '2', '9', '4', '9', '6', '7', '2', '9', '6'] = some 0 := by
  decide

/-- C9 (amended): for every non-empty slice of at most 9 ASCII digit
characters — so that the place-value sum fits in a `u32` and the
accumulation cannot wrap — `as_digits` returns `some` of the
most-significant-first place-value sum; on the empty slice, or any slice
containing a non-digit character, it returns `none`. -/
theorem c9_as_digits (l : List Char) :
    (l ≠ [] → l.length ≤ 9 → (∀ c ∈ l, IsDigitChar c) →
      as_digits l = some (natOfDigits l))
    ∧ (l = [] → as_digits l = none)
    ∧ ((∃ c ∈ l, ¬ IsDigitChar c) → as_digits l = none) := by
  refine ⟨fun h0 h9 hd => as_digits_of_digits l h0 h9 hd, fun h => ?_,
    fun hex => as_digits_none_of_not_digit l hex⟩
  rw [h]
  rfl

/-- Witness for C9: the spec's own example `'0','0','2','3','4' ↦ 234`, the
empty slice, and a slice with a non-digit. -/
theorem c9_as_digits_witness :
    as_digits [('0' : Char), '0', '2', '3', '4']
        = some (natOfDigits [('0' : Char), '0', '2', '3', '4'])
    ∧ natOfDigits [('0' : Char), '0', '2', '3', '4'] = 234
    ∧ as_digits ([] : List Char) = none
    ∧ as_digits [('2' : Char), 'x'] = none := by
  refine ⟨(c9_as_digits _).1 (by decide) (by decide) (by decide), by decide,
    (c9_as_digits ([] : List Char)).2.1 rfl,
    (c9_as_digits _).2.2 ⟨'x', by decide, by decide⟩⟩

/-- C10: if the line-1 half of `Tle::parse` fails — with an error or an
abort — the overall result is that same outcome, independent of the second
argument: line 2 is never examined until line 1 has fully parsed. -/
theorem c10_line1_failure_independent_of_line2 (l1 l2 l2' : List Nat) :
    (∀ e : Error, parseLine1 l1 = some (.error e) →
      Tle.parse l1 l2 = some (.error e) ∧ Tle.parse l1 l2 = Tle.parse l1 l2')
    ∧ (parseLine1 l1 = none →
      Tle.parse l1 l2 = none ∧ Tle.parse l1 l2 = Tle.parse l1 l2') := by
  constructor
  · intro e h
    unfold Tle.parse
    rw [h]
    exact ⟨rfl, rfl⟩
  · intro h
    unfold Tle.parse
    rw [h]
    exact ⟨rfl, rfl⟩

/-- Witness for C10: an empty line 1 fails with `InvalidLineSize`, and the
result does not depend on whether line 2 is the ISS line or empty. -/
theorem c10_line1_failure_witness :
    Tle.parse [] issLine2 = some (.error (.InvalidLineSize .Line1 0))
    ∧ Tle.parse [] issLine2 = Tle.parse [] [] :=
  (c10_line1_failure_independent_of_line2 [] issLine2 []).1
    (.InvalidLineSize .Line1 0) (by decide)

end TleSpec
